import Mathlib

/-!
Verification of the Obligation–Ledger Synchronization Engine of the
vibe-financas-pro15 finance tracker.

The definitions below are a shallow embedding of the TypeScript source:

* `Receivable`, `Tx`, `FinState` — the data shapes of `ReceivableAccount`,
  `Transaction` and the relevant slice of the `FinanceContext` store.
  Timestamps (`dueDate`, `paymentDate`, settlement dates) are modelled as
  `Int` milliseconds since the epoch (`Date.getTime()`); monetary values as
  `Int` centavos, preserving decimal exactness.
* `markAsReceived` — `handleMarkAsReceived` in
  `src/hooks/useReceivableActions.ts` (the freshly generated id of the
  created ledger row is passed in as `newId`, standing for the id the
  store assigns).
* `markAsNotReceived` — `handleMarkAsNotReceived` in the same hook.
* `handleDeleteStates` — `handleDelete` in the same hook, as the sequence
  of store states passed through (one entry per awaited store call).
* The payable page `Payables.tsx` (`handleMarkAsPaid` with its
  account-selection guard) is embedded further below as `markAsPaid`.
-/

/-- `ReceivableAccount` from `src/types` (the fields used by the core). -/
structure Receivable where
  id : String
  clientId : String
  categoryId : String
  accountId : Option String
  value : Int
  dueDate : Int
  isReceived : Bool
  receivedDate : Option Int
  installmentType : String
  observations : Option String
deriving DecidableEq, Repr

/-- `Transaction` from `src/types` (a ledger entry). -/
structure Tx where
  id : String
  type : String
  clientSupplierId : String
  categoryId : String
  accountId : Option String
  value : Int
  paymentDate : Int
  observations : Option String
  sourceType : String
  sourceId : Option String
deriving DecidableEq, Repr

/-- The receivable/ledger slice of the `FinanceContext` store. -/
structure FinState where
  receivables : List Receivable
  transactions : List Tx
deriving DecidableEq, Repr

/-- The idempotency-lookup predicate
`t => t.sourceType === 'receivable' && t.sourceId === id`. -/
def linksReceivable (i : String) (t : Tx) : Bool :=
  t.sourceType == "receivable" && t.sourceId == some i

/-- Ledger entries linked to the receivable with id `i`. -/
def linkedTxs (s : FinState) (i : String) : List Tx :=
  s.transactions.filter (linksReceivable i)

/-- Number of ledger entries linked to the receivable with id `i`. -/
def countLinked (s : FinState) (i : String) : Nat :=
  (linkedTxs s i).length

/-- The partial update `{ isReceived: true, receivedDate }` applied by
`updateReceivableAccount` inside `handleMarkAsReceived`. -/
def setReceived (i : String) (now : Int) (x : Receivable) : Receivable :=
  if x.id == i then { x with isReceived := true, receivedDate := some now } else x

/-- The partial update `{ isReceived: false, receivedDate: undefined }` applied
by `updateReceivableAccount` inside `handleMarkAsNotReceived`. -/
def clearReceived (i : String) (x : Receivable) : Receivable :=
  if x.id == i then { x with isReceived := false, receivedDate := none } else x

/-- The ledger row built by the `addTransaction` call of
`handleMarkAsReceived` (note: the source passes no `accountId` field). -/
def receiptTx (r : Receivable) (now : Int) (newId : String) : Tx :=
  { id := newId
    type := "receita"
    clientSupplierId := r.clientId
    categoryId := r.categoryId
    accountId := none
    value := r.value
    paymentDate := now
    observations := r.observations
    sourceType := "receivable"
    sourceId := some r.id }

/-- `handleMarkAsReceived` from `src/hooks/useReceivableActions.ts`:
look up an existing linked transaction; if found, update only the
receivable's settlement fields and return; otherwise update the receivable
first, then append exactly one linked transaction. -/
def markAsReceived (s : FinState) (r : Receivable) (now : Int) (newId : String) :
    FinState :=
  match s.transactions.find? (linksReceivable r.id) with
  | some _ =>
      { s with receivables := s.receivables.map (setReceived r.id now) }
  | none =>
      let s1 : FinState :=
        { s with receivables := s.receivables.map (setReceived r.id now) }
      { s1 with transactions := s1.transactions ++ [receiptTx r now newId] }

/-- `handleMarkAsNotReceived` from `src/hooks/useReceivableActions.ts`:
clear the receivable's settlement fields, then delete the linked
transaction if one is found; otherwise leave the ledger untouched. -/
def markAsNotReceived (s : FinState) (r : Receivable) : FinState :=
  let s1 : FinState :=
    { s with receivables := s.receivables.map (clearReceived r.id) }
  match s1.transactions.find? (linksReceivable r.id) with
  | some tx =>
      { s1 with transactions := s1.transactions.filter (fun t => !(t.id == tx.id)) }
  | none => s1

/-- `handleDelete` from `src/hooks/useReceivableActions.ts`, as the list of
store states passed through: the initial state, the state after the
(conditional) `deleteTransaction` await, and the state after the
`deleteReceivableAccount` await. -/
def handleDeleteStates (s : FinState) (i : String) : List FinState :=
  match s.receivables.find? (fun x => x.id == i) with
  | some r =>
      if r.isReceived then
        match s.transactions.find? (linksReceivable i) with
        | some tx =>
            let s1 : FinState :=
              { s with transactions :=
                  s.transactions.filter (fun t => !(t.id == tx.id)) }
            let s2 : FinState :=
              { s1 with receivables := s1.receivables.filter (fun x => !(x.id == i)) }
            [s, s1, s2]
        | none =>
            [s, { s with receivables := s.receivables.filter (fun x => !(x.id == i)) }]
      else
        [s, { s with receivables := s.receivables.filter (fun x => !(x.id == i)) }]
  | none =>
      [s, { s with receivables := s.receivables.filter (fun x => !(x.id == i)) }]

/-- `PayableAccount` from `src/types` (the fields used by the core). -/
structure Payable where
  id : String
  supplierId : String
  categoryId : String
  accountId : Option String
  value : Int
  dueDate : Int
  isPaid : Bool
  paidDate : Option Int
  installmentType : String
  observations : Option String
deriving DecidableEq, Repr

/-- The payable/ledger slice of the `FinanceContext` store. -/
structure PayState where
  payables : List Payable
  transactions : List Tx
deriving DecidableEq, Repr

/-- `t => t.sourceType === 'payable' && t.sourceId === id`. -/
def linksPayable (i : String) (t : Tx) : Bool :=
  t.sourceType == "payable" && t.sourceId == some i

/-- Number of ledger entries linked to the payable with id `i`. -/
def countLinkedP (s : PayState) (i : String) : Nat :=
  (s.transactions.filter (linksPayable i)).length

/-- The partial update `{ isPaid: true, paidDate }` applied by
`updatePayableAccount` inside `handleMarkAsPaid`. -/
def setPaid (i : String) (now : Int) (x : Payable) : Payable :=
  if x.id == i then { x with isPaid := true, paidDate := some now } else x

/-- The ledger row built by the `addTransaction` call of `handleMarkAsPaid`
in `src/pages/Payables.tsx` (this path does pass `accountId`). -/
def paymentTx (p : Payable) (now : Int) (newId : String) : Tx :=
  { id := newId
    type := "despesa"
    clientSupplierId := p.supplierId
    categoryId := p.categoryId
    accountId := p.accountId
    value := p.value
    paymentDate := now
    observations := p.observations
    sourceType := "payable"
    sourceId := some p.id }

/-- Outcome of `handleMarkAsPaid`: either the account-selection dialog was
opened (early return, no store mutation) or the settlement ran. -/
inductive PaidResult where
  | needsAccount (s : PayState)
  | settled (s : PayState)
deriving DecidableEq, Repr

/-- The store state carried by a `PaidResult`. -/
def PaidResult.state : PaidResult → PayState
  | .needsAccount s => s
  | .settled s => s

/-- Whether the outcome signalled the "needs account selection" condition. -/
def PaidResult.needsSelection : PaidResult → Bool
  | .needsAccount _ => true
  | .settled _ => false

/-- `handleMarkAsPaid` from `src/pages/Payables.tsx`: if the payable has no
`accountId`, open the account-selection dialog and return; otherwise run the
idempotency lookup and settle. -/
def markAsPaid (s : PayState) (p : Payable) (now : Int) (newId : String) :
    PaidResult :=
  match p.accountId with
  | none => .needsAccount s
  | some _ =>
      match s.transactions.find? (linksPayable p.id) with
      | some _ =>
          .settled { s with payables := s.payables.map (setPaid p.id now) }
      | none =>
          let s1 : PayState := { s with payables := s.payables.map (setPaid p.id now) }
          .settled { s1 with transactions := s1.transactions ++ [paymentTx p now newId] }

/-- `getStatus` from `ReceivablesList` (src/unnamed/part_002, identical in
`PayablesList.tsx` modulo labels): the comparisons are on `Date.getTime()`
milliseconds. -/
def getStatus (r : Receivable) (now : Int) : String :=
  if r.isReceived then "Recebido"
  else if r.dueDate < now then "Vencido"
  else if r.dueDate - now ≤ 7 * 24 * 60 * 60 * 1000 then "Vence em breve"
  else "Pendente"

/-- UTC calendar day of an epoch-milliseconds timestamp. -/
def epochDay (ms : Int) : Int := Int.fdiv ms 86400000

/-- The status deriver as claim C4 words it ("`Overdue` if dueDate is before
now, where the comparison is made at day granularity"): identical to
`getStatus` except that the overdue test compares calendar days. Written
from the claim, to be compared with the source's `getStatus`. -/
def claimC4Status (r : Receivable) (now : Int) : String :=
  if r.isReceived then "Recebido"
  else if epochDay r.dueDate < epochDay now then "Vencido"
  else if r.dueDate - now ≤ 7 * 24 * 60 * 60 * 1000 then "Vence em breve"
  else "Pendente"

/-- `ClientSupplier` from `src/types` (the fields used by name lookup). -/
structure Client where
  id : String
  name : String
deriving DecidableEq, Repr

/-- `Category` from `src/types` (the fields used by name lookup). -/
structure Category where
  id : String
  name : String
deriving DecidableEq, Repr

/-- `getClientName`: `client?.name || 'Cliente não encontrado'` (the JS `||`
also falls back on an empty name). -/
def getClientName (clients : List Client) (i : String) : String :=
  match clients.find? (fun c => c.id == i) with
  | some c => if c.name == "" then "Cliente não encontrado" else c.name
  | none => "Cliente não encontrado"

/-- `getCategoryName`: `category?.name || 'Categoria não encontrada'`. -/
def getCategoryName (cats : List Category) (i : String) : String :=
  match cats.find? (fun c => c.id == i) with
  | some c => if c.name == "" then "Categoria não encontrada" else c.name
  | none => "Categoria não encontrada"

/-- JS `String.prototype.toLowerCase`, character by character, covering the
ASCII range plus the accented capitals that occur in this app's labels. -/
def jsLowerChar (c : Char) : Char :=
  if 'A' ≤ c ∧ c ≤ 'Z' then Char.ofNat (c.toNat + 32)
  else if c = 'Á' then 'á'
  else if c = 'É' then 'é'
  else if c = 'Í' then 'í'
  else if c = 'Ó' then 'ó'
  else if c = 'Ú' then 'ú'
  else if c = 'Ã' then 'ã'
  else if c = 'Ç' then 'ç'
  else c

/-- JS `toLowerCase` on a string. -/
def jsToLower (s : String) : String := ⟨s.data.map jsLowerChar⟩

/-- Whether the first character list begins the second. -/
def chunkAt : List Char → List Char → Bool
  | [], _ => true
  | _ :: _, [] => false
  | a :: as, b :: bs => a == b && chunkAt as bs

/-- Whether the first character list occurs inside the second. -/
def subChunk : List Char → List Char → Bool
  | [], _ => true
  | _ :: _, [] => false
  | a :: as, b :: bs => chunkAt (a :: as) (b :: bs) || subChunk (a :: as) bs

/-- JS `hay.includes(needle)` (substring containment). -/
def jsIncludes (hay needle : String) : Bool := subChunk needle.data hay.data

/-- Digit-grouping worker: walks the reversed digit list, inserting the
pt-BR thousands separator after every third digit. -/
def groupGo : List Char → Nat → List Char
  | [], _ => []
  | c :: cs, i =>
      c :: (if (i + 1) % 3 == 0 && !cs.isEmpty
            then '.' :: groupGo cs (i + 1)
            else groupGo cs (i + 1))

/-- Insert pt-BR thousands separators into a digit string. -/
def groupThousands (ds : List Char) : List Char := (groupGo ds.reverse 0).reverse

/-- Two-digit zero padding. -/
def pad2 (n : Nat) : String := if n < 10 then "0" ++ toString n else toString n

/-- `formatCurrency`: `Intl.NumberFormat('pt-BR', { style: 'currency',
currency: 'BRL' })` over a non-negative amount given in centavos, e.g.
`R$ 1.234,56` (with a non-breaking space after `R$`). -/
def formatCurrency (centavos : Int) : String :=
  let v : Nat := centavos.toNat
  "R$ " ++ String.mk (groupThousands (toString (v / 100)).data)
    ++ "," ++ pad2 (v % 100)

/-- Proleptic-Gregorian civil date (year, month, day) of an epoch day
number (the date part of `Date.toISOString`). -/
def civilFromDays (z0 : Int) : Int × Int × Int :=
  let z := z0 + 719468
  let era := Int.fdiv z 146097
  let doe := z - era * 146097
  let yoe := (doe - doe / 1460 + doe / 36524 - doe / 146096) / 365
  let y := yoe + era * 400
  let doy := doe - (365 * yoe + yoe / 4 - yoe / 100)
  let mp := (5 * doy + 2) / 153
  let d := doy - (153 * mp + 2) / 5 + 1
  let m := mp + (if mp < 10 then 3 else -9)
  (y + (if m ≤ 2 then 1 else 0), m, d)

/-- Two-digit zero padding for day/month numbers. -/
def pad2i (n : Int) : String := if n < 10 then "0" ++ toString n else toString n

/-- Four-digit zero padding for years. -/
def pad4i (y : Int) : String :=
  if y < 10 then "000" ++ toString y
  else if y < 100 then "00" ++ toString y
  else if y < 1000 then "0" ++ toString y
  else toString y

/-- `formatDate` from `ReceivablesList` (src/unnamed/part_002): take the
ISO (UTC) calendar date of the timestamp and render it `dd/MM/yyyy`. -/
def formatDate (ms : Int) : String :=
  let c := civilFromDays (epochDay ms)
  pad2i c.2.2 ++ "/" ++ pad2i c.2.1 ++ "/" ++ pad4i c.1

/-- The per-column filter texts of the list query engine. -/
structure Filters where
  client : String
  category : String
  value : String
  dueDate : String
  status : String
  type : String
deriving DecidableEq, Repr

/-- The filter clause of `filteredAndSortedReceivables`
(src/unnamed/part_002 lines 99–113), conjunct for conjunct: name, category
and status are compared lowercased on both sides; the value and due-date
filters are raw `includes` on the formatted strings; the type filter is the
lowercased filter text matched inside the raw `installmentType` value. -/
def passesFilter (clients : List Client) (cats : List Category)
    (fl : Filters) (now : Int) (r : Receivable) : Bool :=
  jsIncludes (jsToLower (getClientName clients r.clientId)) (jsToLower fl.client) &&
  jsIncludes (jsToLower (getCategoryName cats r.categoryId)) (jsToLower fl.category) &&
  jsIncludes (formatCurrency r.value) fl.value &&
  jsIncludes (formatDate r.dueDate) fl.dueDate &&
  jsIncludes (jsToLower (getStatus r now)) (jsToLower fl.status) &&
  jsIncludes r.installmentType (jsToLower fl.type)

/-- The localized installment-type label rendered in the type column. -/
def typeLabel (t : String) : String :=
  if t == "unico" then "Único"
  else if t == "parcelado" then "Parcelado"
  else if t == "recorrente" then "Recorrente"
  else ""

/-- The filter as claim C8 words it: every non-empty filter text must be a
case-insensitive substring of the rendered display representation of its
column (formatted currency, formatted date, localized status and
installment-type labels). Written from the claim, to be compared with the
source's `passesFilter`. -/
def claimC8Passes (clients : List Client) (cats : List Category)
    (fl : Filters) (now : Int) (r : Receivable) : Prop :=
  (fl.client ≠ "" →
    jsIncludes (jsToLower (getClientName clients r.clientId)) (jsToLower fl.client) = true) ∧
  (fl.category ≠ "" →
    jsIncludes (jsToLower (getCategoryName cats r.categoryId)) (jsToLower fl.category) = true) ∧
  (fl.value ≠ "" →
    jsIncludes (jsToLower (formatCurrency r.value)) (jsToLower fl.value) = true) ∧
  (fl.dueDate ≠ "" →
    jsIncludes (jsToLower (formatDate r.dueDate)) (jsToLower fl.dueDate) = true) ∧
  (fl.status ≠ "" →
    jsIncludes (jsToLower (getStatus r now)) (jsToLower fl.status) = true) ∧
  (fl.type ≠ "" →
    jsIncludes (jsToLower (typeLabel r.installmentType)) (jsToLower fl.type) = true)

/-- The sort comparator of `filteredAndSortedReceivables`
(src/unnamed/part_002 lines 116–134). `lc` stands for the JS
`String.prototype.localeCompare` used on resolved display names. -/
def sortCmp (lc : String → String → Int) (clients : List Client)
    (cats : List Category) (field dir : String) (a b : Receivable) : Int :=
  if field == "dueDate" then
    if dir == "asc" then a.dueDate - b.dueDate else b.dueDate - a.dueDate
  else if field == "value" then
    if dir == "asc" then a.value - b.value else b.value - a.value
  else if field == "category" then
    if dir == "asc"
    then lc (getCategoryName cats a.categoryId) (getCategoryName cats b.categoryId)
    else lc (getCategoryName cats b.categoryId) (getCategoryName cats a.categoryId)
  else if field == "client" then
    if dir == "asc"
    then lc (getClientName clients a.clientId) (getClientName clients b.clientId)
    else lc (getClientName clients b.clientId) (getClientName clients a.clientId)
  else 0

/-- `filtered.sort(comparator)`: ES2019+ `Array.prototype.sort` is stable,
modelled by the stable `List.mergeSort` keeping `a` before `b` whenever the
comparator is non-positive. -/
def sortReceivables (lc : String → String → Int) (clients : List Client)
    (cats : List Category) (field dir : String) (l : List Receivable) :
    List Receivable :=
  l.mergeSort (fun a b => sortCmp lc clients cats field dir a b ≤ 0)

/-- `filteredAndSortedReceivables` (src/unnamed/part_002): filter, then
stable-sort, the receivable collection. -/
def filteredAndSortedReceivables (lc : String → String → Int)
    (clients : List Client) (cats : List Category) (fl : Filters) (now : Int)
    (field dir : String) (l : List Receivable) : List Receivable :=
  sortReceivables lc clients cats field dir (l.filter (passesFilter clients cats fl now))

/-- The sort-header state of the list query engine. -/
structure SortState where
  sortField : String
  sortDirection : String
deriving DecidableEq, Repr

/-- `handleSort` (src/unnamed/part_002 lines 144–151): clicking the active
field toggles the direction, clicking another field selects it ascending. -/
def handleSort (st : SortState) (field : String) : SortState :=
  if st.sortField == field then
    { st with sortDirection := if st.sortDirection == "asc" then "desc" else "asc" }
  else
    { sortField := field, sortDirection := "asc" }

/-- Sample: an unsettled receivable that carries an account. -/
def rA : Receivable :=
  { id := "r1", clientId := "c1", categoryId := "k1", accountId := some "a1"
    value := 12345, dueDate := 0, isReceived := false, receivedDate := none
    installmentType := "unico", observations := none }

/-- Sample store: `rA` alone, empty ledger. -/
def sA : FinState := { receivables := [rA], transactions := [] }

/-- Sample: a settled receivable. -/
def rS : Receivable :=
  { id := "r2", clientId := "c1", categoryId := "k1", accountId := some "a1"
    value := 500, dueDate := 0, isReceived := true, receivedDate := some 10
    installmentType := "unico", observations := none }

/-- Sample: the ledger entry linked to `rS`. -/
def txS : Tx :=
  { id := "t1", type := "receita", clientSupplierId := "c1", categoryId := "k1"
    accountId := none, value := 500, paymentDate := 10, observations := none
    sourceType := "receivable", sourceId := some "r2" }

/-- Sample store: `rS` with its linked entry. -/
def sS : FinState := { receivables := [rS], transactions := [txS] }

/-- Sample: an unsettled receivable that nevertheless has a linked entry
(the partial-failure configuration of claim C10). -/
def rB : Receivable :=
  { id := "r3", clientId := "c1", categoryId := "k1", accountId := none
    value := 700, dueDate := 0, isReceived := false, receivedDate := none
    installmentType := "unico", observations := none }

/-- Sample: a ledger entry referencing the unsettled `rB`. -/
def txB : Tx :=
  { id := "t3", type := "receita", clientSupplierId := "c1", categoryId := "k1"
    accountId := none, value := 700, paymentDate := 10, observations := none
    sourceType := "receivable", sourceId := some "r3" }

/-- Sample store: unsettled `rB` with an orphan-candidate linked entry. -/
def sB : FinState := { receivables := [rB], transactions := [txB] }

/-- Sample: unsettled receivable due at millisecond 1000 (same UTC day as
millisecond 2000). -/
def rC4 : Receivable :=
  { id := "r4", clientId := "c1", categoryId := "k1", accountId := none
    value := 100, dueDate := 1000, isReceived := false, receivedDate := none
    installmentType := "unico", observations := none }

/-- Sample: unsettled receivable due exactly 7 days after instant 0. -/
def rC4b : Receivable :=
  { id := "r5", clientId := "c1", categoryId := "k1", accountId := none
    value := 100, dueDate := 7 * 24 * 60 * 60 * 1000, isReceived := false
    receivedDate := none, installmentType := "unico", observations := none }

/-- Sample: a payable with no account. -/
def p6 : Payable :=
  { id := "p6", supplierId := "s1", categoryId := "k1", accountId := none
    value := 100, dueDate := 0, isPaid := false, paidDate := none
    installmentType := "unico", observations := none }

/-- Sample store for the account-selection guard. -/
def s6 : PayState := { payables := [p6], transactions := [] }

/-- Sample: a payable with an account. -/
def p7 : Payable :=
  { id := "p7", supplierId := "s1", categoryId := "k1", accountId := some "acc"
    value := 100, dueDate := 0, isPaid := false, paidDate := none
    installmentType := "unico", observations := none }

/-- Sample: first of two duplicate entries linked to `p7`. -/
def t7a : Tx :=
  { id := "t7a", type := "despesa", clientSupplierId := "s1", categoryId := "k1"
    accountId := some "acc", value := 100, paymentDate := 5, observations := none
    sourceType := "payable", sourceId := some "p7" }

/-- Sample: second of two duplicate entries linked to `p7`. -/
def t7b : Tx :=
  { id := "t7b", type := "despesa", clientSupplierId := "s1", categoryId := "k1"
    accountId := some "acc", value := 100, paymentDate := 6, observations := none
    sourceType := "payable", sourceId := some "p7" }

/-- Sample store violating the at-most-one-linked-entry invariant. -/
def s7 : PayState := { payables := [p7], transactions := [t7a, t7b] }

/-- Sample: a settled single-installment receivable for filter tests. -/
def r8 : Receivable :=
  { id := "r8", clientId := "c", categoryId := "k", accountId := none
    value := 100, dueDate := 0, isReceived := true, receivedDate := some 0
    installmentType := "unico", observations := none }

/-- Sample filters: only the type column is filtered, by its rendered label. -/
def fl8 : Filters :=
  { client := "", category := "", value := "", dueDate := "", status := ""
    type := "Único" }

/-- Sample filters: only the status column is filtered. -/
def fl8s : Filters :=
  { client := "", category := "", value := "", dueDate := "", status := "RECEB"
    type := "" }

/-- Stand-in for `localeCompare` in concrete sort evaluations. -/
def lcConst : String → String → Int := fun _ _ => 0

/-- Sample: receivable with value 5 (id "x"). -/
def r9a : Receivable :=
  { id := "x", clientId := "c", categoryId := "k", accountId := none
    value := 5, dueDate := 1, isReceived := false, receivedDate := none
    installmentType := "unico", observations := none }

/-- Sample: a second receivable with the same value 5 (id "y"). -/
def r9b : Receivable :=
  { id := "y", clientId := "c", categoryId := "k", accountId := none
    value := 5, dueDate := 2, isReceived := false, receivedDate := none
    installmentType := "unico", observations := none }

/-- Sample: receivable with value 3 (id "z"). -/
def r9d : Receivable :=
  { id := "z", clientId := "c", categoryId := "k", accountId := none
    value := 3, dueDate := 3, isReceived := false, receivedDate := none
    installmentType := "unico", observations := none }

/-- A list of length at most one containing `a` is exactly `[a]`. -/
theorem eq_singleton_of_mem_of_length_le_one {α : Type} {l : List α} {a : α}
    (ha : a ∈ l) (hl : l.length ≤ 1) : l = [a] := by
  cases l with
  | nil => cases ha
  | cons x xs =>
    cases xs with
    | nil => simp only [List.mem_singleton] at ha; subst ha; rfl
    | cons y ys => simp at hl

/-- No linked entry is counted exactly when the idempotency lookup misses. -/
theorem countLinked_eq_zero_iff (s : FinState) (i : String) :
    countLinked s i = 0 ↔ s.transactions.find? (linksReceivable i) = none := by
  unfold countLinked linkedTxs
  rw [List.length_eq_zero, List.filter_eq_nil_iff, List.find?_eq_none]

/-- With at most one linked entry, a linked member is the whole filter. -/
theorem linkedTxs_eq_singleton {s : FinState} {i : String} {tx : Tx}
    (htx : tx ∈ s.transactions) (hp : linksReceivable i tx = true)
    (hc : countLinked s i ≤ 1) : linkedTxs s i = [tx] :=
  eq_singleton_of_mem_of_length_le_one (List.mem_filter.mpr ⟨htx, hp⟩) hc

/-- Unfolding of `markAsReceived` when the idempotency lookup hits. -/
theorem markAsReceived_found {s : FinState} {r : Receivable} {tx : Tx}
    (h : s.transactions.find? (linksReceivable r.id) = some tx)
    (t : Int) (n : String) :
    markAsReceived s r t n =
      { s with receivables := s.receivables.map (setReceived r.id t) } := by
  unfold markAsReceived
  rw [h]

/-- Unfolding of `markAsReceived` when the idempotency lookup misses. -/
theorem markAsReceived_notfound {s : FinState} {r : Receivable}
    (h : s.transactions.find? (linksReceivable r.id) = none)
    (t : Int) (n : String) :
    markAsReceived s r t n =
      { receivables := s.receivables.map (setReceived r.id t)
        transactions := s.transactions ++ [receiptTx r t n] } := by
  unfold markAsReceived
  rw [h]

/-- The ledger row created by settlement is linked to its receivable. -/
theorem linksReceivable_receiptTx (r : Receivable) (t : Int) (n : String) :
    linksReceivable r.id (receiptTx r t n) = true := by
  simp [linksReceivable, receiptTx]

/-- C1. Settle is idempotent with respect to ledger creation: when a linked
ledger entry already exists, `handleMarkAsReceived` only rewrites the
receivable's `isReceived`/`receivedDate` fields and leaves the ledger
untouched; consequently, starting from a store with at most one linked
entry, settling twice leaves exactly one linked ledger entry. -/
theorem settle_idempotent_single_linked_entry (s : FinState) (r : Receivable)
    (t₁ t₂ : Int) (n₁ n₂ : String) :
    ((∃ tx ∈ s.transactions, linksReceivable r.id tx = true) →
      (markAsReceived s r t₁ n₁).transactions = s.transactions ∧
      (markAsReceived s r t₁ n₁).receivables
        = s.receivables.map (setReceived r.id t₁)) ∧
    (countLinked s r.id ≤ 1 →
      countLinked (markAsReceived (markAsReceived s r t₁ n₁) r t₂ n₂) r.id = 1) := by
  constructor
  · intro hex
    have hsome : (s.transactions.find? (linksReceivable r.id)).isSome := by
      rw [List.find?_isSome]; exact hex
    obtain ⟨tx, hfind⟩ := Option.isSome_iff_exists.mp hsome
    rw [markAsReceived_found hfind]
    exact ⟨rfl, rfl⟩
  · intro hc
    cases hfind : s.transactions.find? (linksReceivable r.id) with
    | some tx =>
      have htx : tx ∈ s.transactions := List.mem_of_find?_eq_some hfind
      have hp : linksReceivable r.id tx = true := List.find?_some hfind
      have hone : countLinked s r.id = 1 := by
        unfold countLinked
        rw [linkedTxs_eq_singleton htx hp hc]
        rfl
      rw [markAsReceived_found hfind]
      rw [markAsReceived_found (s := { s with receivables := s.receivables.map (setReceived r.id t₁) }) hfind]
      exact hone
    | none =>
      have hzero : (s.transactions.filter (linksReceivable r.id)) = [] := by
        rw [List.filter_eq_nil_iff]
        exact List.find?_eq_none.mp hfind
      rw [markAsReceived_notfound hfind]
      have hfind2 :
          ((s.transactions ++ [receiptTx r t₁ n₁]).find? (linksReceivable r.id))
            = some (receiptTx r t₁ n₁) := by
        rw [List.find?_append]
        rw [hfind]
        simp [linksReceivable_receiptTx]
      rw [markAsReceived_found
        (s := { receivables := s.receivables.map (setReceived r.id t₁)
                transactions := s.transactions ++ [receiptTx r t₁ n₁] }) hfind2]
      unfold countLinked linkedTxs
      simp only [List.filter_append, hzero, List.nil_append]
      simp [linksReceivable_receiptTx]

/-- Witness for C1 at a concrete store: `rA` has no linked entry, so the
double settlement leaves exactly one. -/
theorem settle_idempotent_witness :
    countLinked (markAsReceived (markAsReceived sA rA 5 "t1") rA 6 "t2") rA.id = 1 :=
  (settle_idempotent_single_linked_entry sA rA 5 6 "t1" "t2").2 (by decide)

/-- Unfolding of `markAsNotReceived` when the linked-entry lookup hits. -/
theorem markAsNotReceived_found {s : FinState} {r : Receivable} {tx : Tx}
    (h : s.transactions.find? (linksReceivable r.id) = some tx) :
    markAsNotReceived s r =
      { receivables := s.receivables.map (clearReceived r.id)
        transactions := s.transactions.filter (fun t => !(t.id == tx.id)) } := by
  unfold markAsNotReceived
  simp only [h]

/-- Unfolding of `markAsNotReceived` when the linked-entry lookup misses. -/
theorem markAsNotReceived_notfound {s : FinState} {r : Receivable}
    (h : s.transactions.find? (linksReceivable r.id) = none) :
    markAsNotReceived s r =
      { s with receivables := s.receivables.map (clearReceived r.id) } := by
  unfold markAsNotReceived
  simp only [h]

/-- C3. Unsettle clears the receivable's settlement fields, removes the
linked ledger entry when one exists, is a no-op on the ledger when none
exists, and applying it twice leaves the ledger of the first application
unchanged (the second call is a ledger no-op, so both calls complete). -/
theorem unsettle_twice_succeeds (s : FinState) (r : Receivable)
    (hc : countLinked s r.id ≤ 1) :
    ((markAsNotReceived s r).receivables = s.receivables.map (clearReceived r.id)) ∧
    (countLinked (markAsNotReceived s r) r.id = 0) ∧
    (s.transactions.find? (linksReceivable r.id) = none →
      (markAsNotReceived s r).transactions = s.transactions) ∧
    ((markAsNotReceived (markAsNotReceived s r) r).transactions
      = (markAsNotReceived s r).transactions) := by
  cases hfind : s.transactions.find? (linksReceivable r.id) with
  | some tx =>
    have htx : tx ∈ s.transactions := List.mem_of_find?_eq_some hfind
    have hp : linksReceivable r.id tx = true := List.find?_some hfind
    have hsing : linkedTxs s r.id = [tx] := linkedTxs_eq_singleton htx hp hc
    have hnone2 : (s.transactions.filter (fun t => !(t.id == tx.id))).find?
        (linksReceivable r.id) = none := by
      rw [List.find?_eq_none]
      intro t ht hl
      obtain ⟨htm, hq⟩ := List.mem_filter.mp ht
      have hmem : t ∈ linkedTxs s r.id := List.mem_filter.mpr ⟨htm, hl⟩
      rw [hsing, List.mem_singleton] at hmem
      subst hmem
      simp at hq
    rw [markAsNotReceived_found hfind]
    refine ⟨rfl, ?_, ?_, ?_⟩
    · unfold countLinked linkedTxs
      rw [List.length_eq_zero]
      rw [show ({ receivables := s.receivables.map (clearReceived r.id)
                  transactions := s.transactions.filter (fun t => !(t.id == tx.id)) }
            : FinState).transactions
          = s.transactions.filter (fun t => !(t.id == tx.id)) from rfl]
      rw [List.filter_filter, List.filter_eq_nil_iff]
      intro t htmem
      by_cases hl : linksReceivable r.id t = true
      · have hmem : t ∈ linkedTxs s r.id := List.mem_filter.mpr ⟨htmem, hl⟩
        rw [hsing, List.mem_singleton] at hmem
        subst hmem
        simp
      · simp [hl]
    · intro hnone
      exact Option.noConfusion hnone
    · rw [markAsNotReceived_notfound
        (s := { receivables := s.receivables.map (clearReceived r.id)
                transactions := s.transactions.filter (fun t => !(t.id == tx.id)) })
        hnone2]
  | none =>
    have hzero : countLinked s r.id = 0 := (countLinked_eq_zero_iff s r.id).mpr hfind
    rw [markAsNotReceived_notfound hfind]
    refine ⟨rfl, hzero, fun _ => rfl, ?_⟩
    rw [markAsNotReceived_notfound
      (s := { s with receivables := s.receivables.map (clearReceived r.id) })
      hfind]

/-- Witness for C3 at a concrete store: unsettling the settled `rS` removes
its linked entry. -/
theorem unsettle_twice_succeeds_witness :
    countLinked (markAsNotReceived sS rS) rS.id = 0 :=
  (unsettle_twice_succeeds sS rS (by decide)).2.1

/-- Deleting the (sole) linked entry by its id empties the linked set. -/
theorem filter_out_linked {s : FinState} {i : String} {tx : Tx}
    (hsing : linkedTxs s i = [tx]) :
    (s.transactions.filter (fun t => !(t.id == tx.id))).filter
      (linksReceivable i) = [] := by
  rw [List.filter_filter, List.filter_eq_nil_iff]
  intro t htm
  by_cases hl : linksReceivable i t = true
  · have hmem : t ∈ linkedTxs s i := List.mem_filter.mpr ⟨htm, hl⟩
    rw [hsing, List.mem_singleton] at hmem
    subst hmem
    simp
  · simp [hl]

/-- Unfolding of `handleDeleteStates` for a settled obligation with a
linked entry: the entry is deleted strictly before the obligation. -/
theorem handleDeleteStates_settled_found {s : FinState} {i : String}
    {r : Receivable} {tx : Tx}
    (hr : s.receivables.find? (fun x => x.id == i) = some r)
    (hset : r.isReceived = true)
    (htx : s.transactions.find? (linksReceivable i) = some tx) :
    handleDeleteStates s i =
      [s,
       { s with transactions := s.transactions.filter (fun t => !(t.id == tx.id)) },
       { receivables := s.receivables.filter (fun x => !(x.id == i))
         transactions := s.transactions.filter (fun t => !(t.id == tx.id)) }] := by
  unfold handleDeleteStates
  simp only [hr, hset, htx, if_true]

/-- Unfolding of `handleDeleteStates` for a settled obligation without a
linked entry. -/
theorem handleDeleteStates_settled_notfound {s : FinState} {i : String}
    {r : Receivable}
    (hr : s.receivables.find? (fun x => x.id == i) = some r)
    (hset : r.isReceived = true)
    (htx : s.transactions.find? (linksReceivable i) = none) :
    handleDeleteStates s i =
      [s, { s with receivables := s.receivables.filter (fun x => !(x.id == i)) }] := by
  unfold handleDeleteStates
  simp only [hr, hset, htx, if_true]

/-- C2. Cascade deletion of a settled obligation deletes the linked ledger
entry strictly before the obligation: no state of the deletion sequence has
the obligation gone while a linked entry remains, and the final state has
neither the obligation nor any linked entry. -/
theorem cascade_delete_no_orphan (s : FinState) (i : String) (r : Receivable)
    (hr : s.receivables.find? (fun x => x.id == i) = some r)
    (hset : r.isReceived = true)
    (hc : countLinked s i ≤ 1) :
    (∀ st ∈ handleDeleteStates s i,
      (∀ x ∈ st.receivables, ¬ x.id = i) → countLinked st i = 0) ∧
    (∃ sf, (handleDeleteStates s i).getLast? = some sf ∧
      (∀ x ∈ sf.receivables, ¬ x.id = i) ∧ countLinked sf i = 0) := by
  have hmemr : r ∈ s.receivables := List.mem_of_find?_eq_some hr
  have hidr : r.id = i := by
    have h := List.find?_some hr
    simpa using h
  cases htx : s.transactions.find? (linksReceivable i) with
  | some tx =>
    have htxm : tx ∈ s.transactions := List.mem_of_find?_eq_some htx
    have hptx : linksReceivable i tx = true := List.find?_some htx
    have hsing : linkedTxs s i = [tx] := linkedTxs_eq_singleton htxm hptx hc
    have hfinalrec : ∀ x ∈ s.receivables.filter (fun x => !(x.id == i)), ¬ x.id = i := by
      intro x hx
      have := (List.mem_filter.mp hx).2
      simpa using this
    rw [handleDeleteStates_settled_found hr hset htx]
    constructor
    · intro st hst
      simp only [List.mem_cons, List.mem_singleton, List.not_mem_nil, or_false] at hst
      rcases hst with h1 | h2 | h3
      · subst h1
        intro h
        exact absurd hidr (h r hmemr)
      · subst h2
        intro h
        exact absurd hidr (h r hmemr)
      · subst h3
        intro _
        unfold countLinked linkedTxs
        rw [show ({ receivables := s.receivables.filter (fun x => !(x.id == i))
                    transactions := s.transactions.filter (fun t => !(t.id == tx.id)) }
              : FinState).transactions
            = s.transactions.filter (fun t => !(t.id == tx.id)) from rfl]
        rw [filter_out_linked hsing]
        rfl
    · refine ⟨{ receivables := s.receivables.filter (fun x => !(x.id == i))
                transactions := s.transactions.filter (fun t => !(t.id == tx.id)) },
        by rfl, hfinalrec, ?_⟩
      unfold countLinked linkedTxs
      rw [show ({ receivables := s.receivables.filter (fun x => !(x.id == i))
                  transactions := s.transactions.filter (fun t => !(t.id == tx.id)) }
            : FinState).transactions
          = s.transactions.filter (fun t => !(t.id == tx.id)) from rfl]
      rw [filter_out_linked hsing]
      rfl
  | none =>
    have hzero : countLinked s i = 0 := (countLinked_eq_zero_iff s i).mpr htx
    have hfinalrec : ∀ x ∈ s.receivables.filter (fun x => !(x.id == i)), ¬ x.id = i := by
      intro x hx
      have := (List.mem_filter.mp hx).2
      simpa using this
    rw [handleDeleteStates_settled_notfound hr hset htx]
    constructor
    · intro st hst
      simp only [List.mem_cons, List.mem_singleton, List.not_mem_nil, or_false] at hst
      rcases hst with h1 | h2
      · subst h1
        intro h
        exact absurd hidr (h r hmemr)
      · subst h2
        intro _
        exact hzero
    · exact ⟨{ s with receivables := s.receivables.filter (fun x => !(x.id == i)) },
        by rfl, hfinalrec, hzero⟩

/-- Witness for C2 at a concrete store: deleting the settled `rS` ends with
neither the obligation nor its linked entry. -/
theorem cascade_delete_no_orphan_witness :
    ∃ sf, (handleDeleteStates sS "r2").getLast? = some sf ∧
      (∀ x ∈ sf.receivables, ¬ x.id = "r2") ∧ countLinked sf "r2" = 0 :=
  (cascade_delete_no_orphan sS "r2" rS (by decide) (by decide) (by decide)).2

/-- Unfolding of `handleDeleteStates` for an unsettled obligation: the
ledger branch is skipped entirely. -/
theorem handleDeleteStates_unsettled {s : FinState} {i : String}
    {r : Receivable}
    (hr : s.receivables.find? (fun x => x.id == i) = some r)
    (hset : r.isReceived = false) :
    handleDeleteStates s i =
      [s, { s with receivables := s.receivables.filter (fun x => !(x.id == i)) }] := by
  unfold handleDeleteStates
  simp [hr, hset]

/-- C10. Deleting an unsettled obligation neither inspects nor modifies the
ledger: the deletion sequence is just "remove the obligation record", the
final transactions list is the initial one, and any entry linked to the
obligation's id survives (its linked count is unchanged). -/
theorem delete_unsettled_skips_ledger (s : FinState) (i : String) (r : Receivable)
    (hr : s.receivables.find? (fun x => x.id == i) = some r)
    (hset : r.isReceived = false) :
    handleDeleteStates s i =
      [s, { s with receivables := s.receivables.filter (fun x => !(x.id == i)) }] ∧
    (∃ sf, (handleDeleteStates s i).getLast? = some sf ∧
      sf.transactions = s.transactions ∧
      countLinked sf i = countLinked s i ∧
      sf.receivables = s.receivables.filter (fun x => !(x.id == i))) := by
  have h := handleDeleteStates_unsettled hr hset
  refine ⟨h, ⟨{ s with receivables := s.receivables.filter (fun x => !(x.id == i)) },
    ?_, rfl, rfl, rfl⟩⟩
  rw [h]
  rfl

/-- Witness for C10 at a concrete store: `rB` is unsettled yet has a linked
entry; after deletion the entry survives, now orphaned. -/
theorem delete_unsettled_skips_ledger_witness :
    countLinked sB "r3" = 1 ∧
    (∃ sf, (handleDeleteStates sB "r3").getLast? = some sf ∧
      sf.transactions = sB.transactions ∧
      countLinked sf "r3" = countLinked sB "r3" ∧
      sf.receivables = sB.receivables.filter (fun x => !(x.id == "r3"))) :=
  ⟨by decide, (delete_unsettled_skips_ledger sB "r3" rB (by decide) (by decide)).2⟩

/-- C5 (code bug). Evaluating the receivable settlement at a concrete
obligation that carries account `a1`: the single ledger entry created by
`handleMarkAsReceived` has `accountId = none`, because the hook's
`addTransaction` call passes no account (even though `Receivables.tsx`
hands an account id to the one-parameter hook). The other fields are
carried as the claim states. -/
theorem settle_drops_account :
    ∃ tx, (markAsReceived sA rA 5 "t1").transactions = [tx] ∧
      tx.accountId = none ∧ rA.accountId = some "a1" ∧
      tx.clientSupplierId = rA.clientId ∧ tx.categoryId = rA.categoryId ∧
      tx.value = rA.value ∧ tx.paymentDate = 5 ∧
      tx.observations = rA.observations ∧
      tx.sourceType = "receivable" ∧ tx.sourceId = some rA.id := by
  refine ⟨receiptTx rA 5 "t1", ?_, rfl, rfl, rfl, rfl, rfl, rfl, rfl, rfl, rfl⟩
  decide

/-- C6. When a payable has no `accountId`, `handleMarkAsPaid` opens the
account-selection dialog and returns before any store call: the outcome
signals "needs account selection" and the store (obligations and ledger)
is exactly the input store. -/
theorem needs_account_guard (s : PayState) (p : Payable) (now : Int)
    (nid : String) (h : p.accountId = none) :
    (markAsPaid s p now nid).needsSelection = true ∧
    (markAsPaid s p now nid).state = s := by
  simp [markAsPaid, h, PaidResult.needsSelection, PaidResult.state]

/-- Witness for C6 at a concrete store: `p6` has no account. -/
theorem needs_account_guard_witness :
    (markAsPaid s6 p6 3 "t6").needsSelection = true ∧
    (markAsPaid s6 p6 3 "t6").state = s6 :=
  needs_account_guard s6 p6 3 "t6" (by decide)

/-- C7 (counterexample). With two ledger entries linked to `p7`, the
settlement does not raise any duplicate-entry error: it proceeds through
the found-branch, marking the payable paid, leaving both entries in place.
No `DuplicateLedgerEntryError` exists anywhere in the source. -/
theorem duplicate_entries_not_fatal :
    countLinkedP s7 p7.id = 2 ∧
    markAsPaid s7 p7 9 "t9"
      = .settled { s7 with payables := s7.payables.map (setPaid p7.id 9) } := by
  decide

/-- C7 (amended). If the payable has an account and the idempotency lookup
would find two or more linked entries, `handleMarkAsPaid` silently takes
the found-branch driven by the first match: it signals no error, updates
only the payable's settlement fields and creates no ledger entry. -/
theorem duplicate_entries_silently_reused (s : PayState) (p : Payable)
    (now : Int) (nid : String)
    (hacc : p.accountId.isSome = true)
    (hdup : 2 ≤ countLinkedP s p.id) :
    (markAsPaid s p now nid).needsSelection = false ∧
    (markAsPaid s p now nid).state.transactions = s.transactions ∧
    (markAsPaid s p now nid).state.payables = s.payables.map (setPaid p.id now) := by
  obtain ⟨acc, haccEq⟩ := Option.isSome_iff_exists.mp hacc
  have hlen : 0 < (s.transactions.filter (linksPayable p.id)).length :=
    lt_of_lt_of_le (by norm_num) hdup
  rw [List.length_pos] at hlen
  obtain ⟨t, ht⟩ := List.exists_mem_of_ne_nil _ hlen
  have hex : ∃ u ∈ s.transactions, linksPayable p.id u = true :=
    ⟨t, (List.mem_filter.mp ht).1, (List.mem_filter.mp ht).2⟩
  have hsome : (s.transactions.find? (linksPayable p.id)).isSome :=
    List.find?_isSome.mpr hex
  obtain ⟨tx, hfind⟩ := Option.isSome_iff_exists.mp hsome
  simp [markAsPaid, haccEq, hfind, PaidResult.needsSelection, PaidResult.state]

/-- Witness for the amended C7 at the concrete duplicate store `s7`. -/
theorem duplicate_entries_silently_reused_witness :
    (markAsPaid s7 p7 9 "t9").needsSelection = false ∧
    (markAsPaid s7 p7 9 "t9").state.transactions = s7.transactions ∧
    (markAsPaid s7 p7 9 "t9").state.payables = s7.payables.map (setPaid p7.id 9) :=
  duplicate_entries_silently_reused s7 p7 9 "t9" (by decide) (by decide)

/-- C4 (counterexample). At due instant 1000 and "now" 2000 — the same UTC
calendar day — the source's `getStatus` reports `Vencido` (overdue) while
the claim's day-granularity deriver reports `Vence em breve`: the overdue
comparison is a full datetime comparison, not a day-granularity one. -/
theorem status_not_day_granularity :
    getStatus rC4 2000 = "Vencido" ∧
    claimC4Status rC4 2000 = "Vence em breve" ∧
    epochDay rC4.dueDate = epochDay 2000 ∧
    rC4.isReceived = false := by
  decide

/-- C4 (amended). `getStatus` is a pure total function returning exactly
one of four mutually exclusive statuses in precedence order: `Recebido`
when settled; else `Vencido` when `dueDate < now` as full millisecond
timestamps (datetime comparison); else `Vence em breve` when
`dueDate - now` is at most 7 days, boundary inclusive; else `Pendente`. -/
theorem getStatus_datetime_characterization (r : Receivable) (now : Int) :
    (getStatus r now = "Recebido" ∨ getStatus r now = "Vencido" ∨
     getStatus r now = "Vence em breve" ∨ getStatus r now = "Pendente") ∧
    (getStatus r now = "Recebido" ↔ r.isReceived = true) ∧
    (getStatus r now = "Vencido" ↔ r.isReceived = false ∧ r.dueDate < now) ∧
    (getStatus r now = "Vence em breve" ↔
      r.isReceived = false ∧ now ≤ r.dueDate ∧
      r.dueDate - now ≤ 7 * 24 * 60 * 60 * 1000) ∧
    (getStatus r now = "Pendente" ↔
      r.isReceived = false ∧ now ≤ r.dueDate ∧
      7 * 24 * 60 * 60 * 1000 < r.dueDate - now) ∧
    (r.isReceived = false → r.dueDate - now = 7 * 24 * 60 * 60 * 1000 →
      getStatus r now = "Vence em breve") := by
  by_cases h1 : r.isReceived = true
  · simp [getStatus, h1]
  · have h1' : r.isReceived = false := by simpa using h1
    by_cases h2 : r.dueDate < now
    · refine ⟨?_, ?_, ?_, ?_, ?_, ?_⟩ <;> simp [getStatus, h1', h2] <;> omega
    · by_cases h3 : r.dueDate - now ≤ 7 * 24 * 60 * 60 * 1000
      · have h3' : r.dueDate ≤ 604800000 + now := by omega
        refine ⟨?_, ?_, ?_, ?_, ?_, ?_⟩ <;> simp [getStatus, h1', h2, h3'] <;> omega
      · have h3' : ¬(r.dueDate ≤ 604800000 + now) := by omega
        refine ⟨?_, ?_, ?_, ?_, ?_, ?_⟩ <;> simp [getStatus, h1', h2, h3'] <;> omega

/-- Witness for the amended C4: a receivable due exactly 7 days after
"now" is `Vence em breve` (inclusive boundary). -/
theorem getStatus_characterization_witness :
    getStatus rC4b 0 = "Vence em breve" :=
  (getStatus_datetime_characterization rC4b 0).2.2.2.2.2 (by decide) (by decide)

/-- An empty needle is contained in every string (`''.includes` is true). -/
theorem jsIncludes_empty (s : String) : jsIncludes s "" = true := by
  simp [jsIncludes, subChunk]

/-- Lowercasing the empty string. -/
theorem jsToLower_empty : jsToLower "" = "" := rfl

/-- C8 (counterexample). With every filter empty except the type filter set
to the rendered label `Único`, the record with raw `installmentType`
`unico` satisfies the claim's rendered-display predicate but fails the
source filter: the source matches the type filter against the raw stored
value, not the localized label (and the accented capital breaks it). -/
theorem filter_misses_type_label :
    passesFilter [] [] fl8 0 r8 = false ∧ claimC8Passes [] [] fl8 0 r8 := by
  constructor
  · decide
  · unfold claimC8Passes
    refine ⟨?_, ?_, ?_, ?_, ?_, ?_⟩ <;> intro h <;> decide

/-- C8 (amended). A record passes the source filter iff every non-empty
filter text matches its column as the code actually compares: counterparty
name, category name and status label case-insensitively; the formatted
currency and formatted date by case-sensitive substring; and the
installment type by the lowercased filter text occurring in the raw stored
`installmentType` value (not the localized label). -/
theorem filter_rendered_iff (clients : List Client) (cats : List Category)
    (fl : Filters) (now : Int) (r : Receivable) :
    passesFilter clients cats fl now r = true ↔
    ((fl.client ≠ "" →
        jsIncludes (jsToLower (getClientName clients r.clientId))
          (jsToLower fl.client) = true) ∧
     (fl.category ≠ "" →
        jsIncludes (jsToLower (getCategoryName cats r.categoryId))
          (jsToLower fl.category) = true) ∧
     (fl.value ≠ "" → jsIncludes (formatCurrency r.value) fl.value = true) ∧
     (fl.dueDate ≠ "" → jsIncludes (formatDate r.dueDate) fl.dueDate = true) ∧
     (fl.status ≠ "" →
        jsIncludes (jsToLower (getStatus r now)) (jsToLower fl.status) = true) ∧
     (fl.type ≠ "" → jsIncludes r.installmentType (jsToLower fl.type) = true)) := by
  unfold passesFilter
  simp only [Bool.and_eq_true]
  constructor
  · rintro ⟨⟨⟨⟨⟨h1, h2⟩, h3⟩, h4⟩, h5⟩, h6⟩
    exact ⟨fun _ => h1, fun _ => h2, fun _ => h3, fun _ => h4, fun _ => h5,
      fun _ => h6⟩
  · rintro ⟨h1, h2, h3, h4, h5, h6⟩
    refine ⟨⟨⟨⟨⟨?_, ?_⟩, ?_⟩, ?_⟩, ?_⟩, ?_⟩
    · by_cases h : fl.client = ""
      · rw [h, jsToLower_empty]; exact jsIncludes_empty _
      · exact h1 h
    · by_cases h : fl.category = ""
      · rw [h, jsToLower_empty]; exact jsIncludes_empty _
      · exact h2 h
    · by_cases h : fl.value = ""
      · rw [h]; exact jsIncludes_empty _
      · exact h3 h
    · by_cases h : fl.dueDate = ""
      · rw [h]; exact jsIncludes_empty _
      · exact h4 h
    · by_cases h : fl.status = ""
      · rw [h, jsToLower_empty]; exact jsIncludes_empty _
      · exact h5 h
    · by_cases h : fl.type = ""
      · rw [h, jsToLower_empty]; exact jsIncludes_empty _
      · exact h6 h

/-- Witness for the amended C8: the case-insensitive status filter `RECEB`
accepts the settled record `r8` (its status renders as `Recebido`). -/
theorem filter_rendered_iff_witness :
    passesFilter [] [] fl8s 0 r8 = true :=
  (filter_rendered_iff [] [] fl8s 0 r8).mpr
    (by refine ⟨?_, ?_, ?_, ?_, ?_, ?_⟩ <;> intro _ <;> decide)

/-- C9 (counterexample). With two records of equal value, the stable sort
keeps their original relative order in both directions, so descending is
not the exact reverse of ascending. -/
theorem sort_desc_not_reverse :
    sortReceivables lcConst [] [] "value" "desc" [r9a, r9b]
      ≠ (sortReceivables lcConst [] [] "value" "asc" [r9a, r9b]).reverse := by
  have hAsc : sortReceivables lcConst [] [] "value" "asc" [r9a, r9b]
      = [r9a, r9b] := by
    unfold sortReceivables
    exact List.mergeSort_of_sorted (by decide)
  have hDesc : sortReceivables lcConst [] [] "value" "desc" [r9a, r9b]
      = [r9a, r9b] := by
    unfold sortReceivables
    exact List.mergeSort_of_sorted (by decide)
  rw [hAsc, hDesc]
  decide

/-- C9 (amended). `handleSort` toggles the direction when the active field
is clicked and resets to ascending when a different field is clicked; and
for value sorting over records with pairwise distinct values, toggling the
direction yields the exact reverse of the ascending order (with duplicate
values the stable sort keeps the original relative order instead). -/
theorem handleSort_toggle_value_reverse (st : SortState) (f : String)
    (lc : String → String → Int) (clients : List Client) (cats : List Category)
    (l : List Receivable) :
    (st.sortField = f →
      handleSort st f =
        { st with sortDirection :=
            if st.sortDirection == "asc" then "desc" else "asc" }) ∧
    (st.sortField ≠ f →
      handleSort st f = { sortField := f, sortDirection := "asc" }) ∧
    (l.Pairwise (fun a b => a.value ≠ b.value) →
      sortReceivables lc clients cats "value" "desc" l
        = (sortReceivables lc clients cats "value" "asc" l).reverse) := by
  refine ⟨?_, ?_, ?_⟩
  · intro h; simp [handleSort, h]
  · intro h; simp [handleSort, h]
  · intro hdist
    have hAsc : sortReceivables lc clients cats "value" "asc" l
        = l.mergeSort (fun a b => decide (a.value - b.value ≤ 0)) := by
      unfold sortReceivables
      congr 1
    have hDesc : sortReceivables lc clients cats "value" "desc" l
        = l.mergeSort (fun a b => decide (b.value - a.value ≤ 0)) := by
      unfold sortReceivables
      congr 1
    rw [hAsc, hDesc]
    have hp : (l.mergeSort (fun a b => decide (b.value - a.value ≤ 0))).Perm
        ((l.mergeSort (fun a b => decide (a.value - b.value ≤ 0))).reverse) :=
      ((List.mergeSort_perm l _).trans (List.mergeSort_perm l _).symm).trans
        (List.reverse_perm _).symm
    have hsorted₂ :
        (l.mergeSort (fun a b => decide (b.value - a.value ≤ 0))).Pairwise
          (fun a b => (decide (b.value - a.value ≤ 0)) = true) :=
      List.sorted_mergeSort
        (by intro a b c hab hbc; simp only [decide_eq_true_eq] at *; omega)
        (by intro a b; simp only [Bool.or_eq_true, decide_eq_true_eq]; omega) l
    have hsorted₁ :
        (l.mergeSort (fun a b => decide (a.value - b.value ≤ 0))).Pairwise
          (fun a b => (decide (a.value - b.value ≤ 0)) = true) :=
      List.sorted_mergeSort
        (by intro a b c hab hbc; simp only [decide_eq_true_eq] at *; omega)
        (by intro a b; simp only [Bool.or_eq_true, decide_eq_true_eq]; omega) l
    have hdist₂ :
        (l.mergeSort (fun a b => decide (b.value - a.value ≤ 0))).Pairwise
          (fun a b => a.value ≠ b.value) :=
      ((List.mergeSort_perm l _).pairwise_iff (fun h => Ne.symm h)).mpr hdist
    have hdist₁ :
        (l.mergeSort (fun a b => decide (a.value - b.value ≤ 0))).Pairwise
          (fun a b => a.value ≠ b.value) :=
      ((List.mergeSort_perm l _).pairwise_iff (fun h => Ne.symm h)).mpr hdist
    have hstrict₂ :
        (l.mergeSort (fun a b => decide (b.value - a.value ≤ 0))).Pairwise
          (fun a b => b.value < a.value) :=
      List.Pairwise.imp
        (fun h => by
          obtain ⟨h1, h2⟩ := h
          simp only [decide_eq_true_eq] at h1
          omega)
        (hsorted₂.and hdist₂)
    have hstrict₁ :
        (l.mergeSort (fun a b => decide (a.value - b.value ≤ 0))).Pairwise
          (fun a b => a.value < b.value) :=
      List.Pairwise.imp
        (fun h => by
          obtain ⟨h1, h2⟩ := h
          simp only [decide_eq_true_eq] at h1
          omega)
        (hsorted₁.and hdist₁)
    have hrev :
        ((l.mergeSort (fun a b => decide (a.value - b.value ≤ 0))).reverse).Pairwise
          (fun a b => b.value < a.value) := by
      rw [List.pairwise_reverse]
      exact hstrict₁
    haveI : IsAntisymm Receivable (fun a b => b.value < a.value) :=
      ⟨fun a b h1 h2 => absurd h1 (by omega)⟩
    exact List.eq_of_perm_of_sorted hp hstrict₂ hrev

/-- Witness for the amended C9 at a concrete two-element list with distinct
values (5 and 3). -/
theorem handleSort_toggle_value_reverse_witness :
    sortReceivables lcConst [] [] "value" "desc" [r9a, r9d]
      = (sortReceivables lcConst [] [] "value" "asc" [r9a, r9d]).reverse :=
  (handleSort_toggle_value_reverse ⟨"dueDate", "asc"⟩ "value" lcConst [] [] [r9a, r9d]).2.2
    (by decide)
